import Mathlib

/-!
# Akshayam Wellness — order workflow, shallow embedding

A shallow embedding of the order placement / stock reconciliation workflow
of the backend: the stock validator (`validate_stock`, routers/products.py),
order creation (`create_order`, routers/orders.py), self-service and admin
order editing (`edit_order`, `admin_edit_order`), admin status update and
order deletion, and the background notification dispatcher
(`send_order_email_background`, services/email_service.py).

Modelling conventions:

* The MongoDB document store is a `Store` of association lists keyed by the
  documents' string identifiers; `update_one`/`delete_one` act on the first
  matching document, as in the source.
* Monetary values (`price`, `total`, `total_amount`, the
  `minimum_order_value` setting) are rationals; item and product quantities
  are integers — the pydantic models place no sign constraint on them.
* `bson.ObjectId(s)` raises `InvalidId` unless `s` is a 24-character hex
  string; `isValidObjectId` captures that check, and each handler models
  the raise according to its own exception handling (`edit_order` and
  `admin_edit_order` catch every exception and answer 500, the other
  handlers let it propagate).
* Password hashing and verification live in the auth collaborator and are
  taken as function parameters `hashPw` / `verifyPw`.
* Timestamps are irrelevant to every property below except the email
  failure timestamp, which is modelled as an abstract `Nat` instant.
* Each handler returns the final store together with an
  `Except OrderError` result, so that write effects on failure paths are
  first-class.
-/

/-- A product document: `name`, `quantity` (the stock counter) and
`price`, keyed in the store by its ObjectId string. -/
structure ProductDoc where
  name : String
  quantity : Int
  price : ℚ
deriving DecidableEq, Repr

/-- A user document as written by the order flow. -/
structure UserDoc where
  name : String
  email : String
  phone : String
  address : String
  password_hash : String
deriving DecidableEq, Repr

/-- One order line item (`OrderItem` in models.py): caller supplies the
`total` field, the engine never recomputes `price * quantity`. -/
structure OrderItem where
  product_id : String
  product_name : String
  quantity : Int
  price : ℚ
  total : ℚ
deriving DecidableEq, Repr

/-- An order document as inserted by `create_order` and mutated by the
edit / status / notification paths. -/
structure OrderDoc where
  user_id : String
  user_name : String
  user_email : String
  user_phone : String
  user_address : String
  items : List OrderItem
  total_amount : ℚ
  status : String
  email_notification_failed : Bool
  email_failure_timestamp : Option Nat
deriving DecidableEq, Repr

/-- A stock validation request line (`StockValidationItem`). -/
structure StockItem where
  product_id : String
  quantity : Int
deriving DecidableEq, Repr

/-- One entry of `invalid_items` in a stock validation response. Entries
for missing or malformed products carry no product name. -/
structure InvalidItem where
  product_id : String
  product_name : Option String
  requested_quantity : Int
  available_quantity : Int
  error : String
deriving DecidableEq, Repr

/-- Model of `StockValidationResponse` from models.py. -/
structure StockValidationResponse where
  valid : Bool
  message : String
  invalid_items : List InvalidItem
deriving DecidableEq, Repr

/-- Model of `UserCreate` from models.py: the `user_info` payload of order
creation and editing. -/
structure UserCreate where
  name : String
  email : String
  phone : String
  address : String
  password : String
deriving DecidableEq, Repr

/-- Model of `UserOrderEditRequest`: items plus the customer's own credentials and
an optional replacement `user_info`. -/
structure UserOrderEditRequest where
  items : List OrderItem
  user_info : Option UserCreate
  email : String
  password : String
deriving DecidableEq, Repr

/-- Model of `OrderEditRequest`: the admin variant, no credentials. -/
structure OrderEditRequest where
  items : List OrderItem
  user_info : Option UserCreate
deriving DecidableEq, Repr

/-- The document store: one association list per collection, plus the
system settings keyed by setting name (`minimum_order_value`). -/
structure Store where
  products : List (String × ProductDoc)
  users : List (String × UserDoc)
  orders : List (String × OrderDoc)
  settings : List (String × ℚ)
deriving DecidableEq, Repr

/-- The error outcomes of the modelled handlers, tagged by the HTTP
classes the source raises. `invalidId` is an uncaught `bson.InvalidId`
(500 via the framework), `internalError` is the catch-all 500 of the edit
handlers. -/
inductive OrderError where
  /-- Status 400 with the structured stock validation detail. -/
  | stockInvalid (message : String) (invalid_items : List InvalidItem)
  /-- Status 400 minimum-order-value rejection, carrying the rendered detail. -/
  | minOrder (detail : String)
  /-- Status 404. -/
  | notFound (detail : String)
  /-- Status 401. -/
  | unauthorized (detail : String)
  /-- Status 403. -/
  | forbidden (detail : String)
  /-- Status 400 "Product ... not found" during edit. -/
  | productNotFound (detail : String)
  /-- Status 400 insufficient stock during edit re-validation. -/
  | insufficientStock (detail : String)
  /-- Status 400 "Cannot edit order with status ...". -/
  | cannotEdit (detail : String)
  /-- Uncaught exception from a malformed ObjectId (500). -/
  | invalidId
  /-- The edit handlers' catch-all 500 "Failed to edit order". -/
  | internalError
deriving DecidableEq, Repr

/-- First value bound to a key in an association list (`find_one` by id). -/
def findAssoc {α : Type} (l : List (String × α)) (k : String) : Option α :=
  match l with
  | [] => none
  | (k0, v) :: rest => if k0 = k then some v else findAssoc rest k

/-- Apply `f` to the first value bound to `k` (`update_one` by id);
no-op when the key is absent, as `update_one` matches zero documents. -/
def updateAssoc {α : Type} (l : List (String × α)) (k : String) (f : α → α) :
    List (String × α) :=
  match l with
  | [] => []
  | (k0, v) :: rest =>
      if k0 = k then (k0, f v) :: rest else (k0, v) :: updateAssoc rest k f

/-- Remove the first binding of `k` (`delete_one` by id). -/
def removeAssoc {α : Type} (l : List (String × α)) (k : String) :
    List (String × α) :=
  match l with
  | [] => []
  | (k0, v) :: rest =>
      if k0 = k then rest else (k0, v) :: removeAssoc rest k

/-- Model of `find_one` by email over the users collection: first user whose
email matches, together with its id. -/
def findByEmail (l : List (String × UserDoc)) (e : String) :
    Option (String × UserDoc) :=
  match l with
  | [] => none
  | (k, u) :: rest => if u.email = e then some (k, u) else findByEmail rest e

/-- Hexadecimal character, either case. -/
def isHexChar (c : Char) : Bool :=
  c.isDigit || ('a' ≤ c && c ≤ 'f') || ('A' ≤ c && c ≤ 'F')

/-- Model of `bson.ObjectId.is_valid` on strings: exactly 24 hex characters. -/
def isValidObjectId (s : String) : Bool :=
  s.length == 24 && s.toList.all isHexChar

/-- The out-of-stock message of `validate_stock`. -/
def outOfStockMsg (n : String) : String :=
  n ++ " is out of stock"

/-- The shortfall message shared by `validate_stock` and the edit
re-validation. -/
def onlyAvailableMsg (n : String) (avail req : Int) : String :=
  n ++ " has only " ++ toString avail ++
    " items available, but you requested " ++ toString req

/-- Python `f"{x:.0f}"`: the amount rendered to whole currency units. -/
def fmtWhole (x : ℚ) : String :=
  toString (round x)

/-- The minimum-order rejection message of `create_order`, embedding the
threshold and the cart total rounded to whole currency units. -/
def minOrderCreateMsg (v t : ℚ) : String :=
  "Minimum order value is ₹" ++ fmtWhole v ++ ". Your cart total is ₹" ++
    fmtWhole t ++ ". Please add more items to meet the minimum order requirement."

/-- The minimum-order rejection message of `edit_order`. -/
def minOrderEditMsg (v t : ℚ) : String :=
  "Minimum order value is ₹" ++ fmtWhole v ++ ". Your updated cart total is ₹" ++
    fmtWhole t ++ ". Please add more items to meet the minimum order requirement."

/-- One iteration of the `validate_stock` loop: the invalid entry this
request line contributes, if any. The whole iteration body sits in a
`try` whose handler appends the "Invalid product ID" entry, and the only
raising operation is `ObjectId(item.product_id)`. -/
def validateStockItem (st : Store) (it : StockItem) : Option InvalidItem :=
  if isValidObjectId it.product_id then
    match findAssoc st.products it.product_id with
    | none =>
        some { product_id := it.product_id, product_name := none,
               requested_quantity := it.quantity, available_quantity := 0,
               error := "Product not found" }
    | some p =>
        if p.quantity ≤ 0 then
          some { product_id := it.product_id, product_name := some p.name,
                 requested_quantity := it.quantity,
                 available_quantity := p.quantity,
                 error := outOfStockMsg p.name }
        else if p.quantity < it.quantity then
          some { product_id := it.product_id, product_name := some p.name,
                 requested_quantity := it.quantity,
                 available_quantity := p.quantity,
                 error := onlyAvailableMsg p.name p.quantity it.quantity }
        else none
  else
    some { product_id := it.product_id, product_name := none,
           requested_quantity := it.quantity, available_quantity := 0,
           error := "Invalid product ID" }

/-- Model of `validate_stock` (routers/products.py): accumulate the invalid
entries; valid exactly when none accumulated. A pure read of the store. -/
def validate_stock (st : Store) (items : List StockItem) :
    StockValidationResponse :=
  let invalid := items.filterMap (validateStockItem st)
  if invalid.isEmpty then
    { valid := true, message := "All items are available in stock",
      invalid_items := [] }
  else
    { valid := false,
      message := "Some items in your cart are not available in the requested quantities",
      invalid_items := invalid }

/-- The stock-validation request `create_order` derives from its order
items. -/
def orderToStockItems (items : List OrderItem) : List StockItem :=
  items.map (fun i => { product_id := i.product_id, quantity := i.quantity })

/-- The `$inc` of `d` on the `quantity` of the first product bound to `pid`. -/
def incProductQty (ps : List (String × ProductDoc)) (pid : String) (d : Int) :
    List (String × ProductDoc) :=
  updateAssoc ps pid (fun p => { p with quantity := p.quantity + d })

/-- Per-item quantity increments over a product collection: one
`update_one` with `$inc` per order item, left to right, the increment of
each item given by `f`. -/
def foldIncQty (ps : List (String × ProductDoc)) (f : OrderItem → Int)
    (items : List OrderItem) : List (String × ProductDoc) :=
  items.foldl (fun a i => incProductQty a i.product_id (f i)) ps

/-- The restore loop of the edit handlers: add each item's quantity back
to its product. -/
def restoreStock (st : Store) (items : List OrderItem) : Store :=
  { st with products := foldIncQty st.products (fun i => i.quantity) items }

/-- The deduction loop of `create_order` and the edit handlers: subtract
each item's quantity from its product. -/
def deductStock (st : Store) (items : List OrderItem) : Store :=
  { st with products := foldIncQty st.products (fun i => -i.quantity) items }

/-- The tail of `create_order` after the minimum-order gate: insert the
order document with status "pending" and decrement the product
quantities. Nothing after the gate can fail. -/
def createOrderCommit (st : Store) (user_info : UserCreate)
    (items : List OrderItem) (total_amount : ℚ)
    (user_id freshOrderId : String) : Store × Except OrderError OrderDoc :=
  let order_doc : OrderDoc :=
    { user_id := user_id, user_name := user_info.name,
      user_email := user_info.email, user_phone := user_info.phone,
      user_address := user_info.address, items := items,
      total_amount := total_amount, status := "pending",
      email_notification_failed := false, email_failure_timestamp := none }
  let st2 := { st with orders := st.orders ++ [(freshOrderId, order_doc)] }
  (deductStock st2 items, .ok order_doc)

/-- Model of `create_order` (routers/orders.py): stock validation, user upsert by
email, total as the sum of the caller-supplied item totals,
minimum-order-value gate, then insert + decrement. `hashPw` is the auth
collaborator's `get_password_hash`; `freshUserId` / `freshOrderId` are
the identifiers the store would mint on insertion. The final store is
returned on every path. -/
def create_order (hashPw : String → String) (st : Store)
    (user_info : UserCreate) (items : List OrderItem)
    (freshUserId freshOrderId : String) :
    Store × Except OrderError OrderDoc :=
  let vr := validate_stock st (orderToStockItems items)
  if vr.valid then
    let pwHash := hashPw user_info.password
    let upsert :=
      match findByEmail st.users user_info.email with
      | some (uid, _) =>
          let users1 :=
            updateAssoc st.users uid (fun u => { u with password_hash := pwHash })
          ({ st with users := users1 }, uid)
      | none =>
          let newUser : UserDoc :=
            { name := user_info.name, email := user_info.email,
              phone := user_info.phone, address := user_info.address,
              password_hash := pwHash }
          ({ st with users := st.users ++ [(freshUserId, newUser)] }, freshUserId)
    let st1 := upsert.1
    let total_amount := (items.map OrderItem.total).sum
    match findAssoc st1.settings "minimum_order_value" with
    | some v =>
        if total_amount < v then
          (st1, .error (.minOrder (minOrderCreateMsg v total_amount)))
        else createOrderCommit st1 user_info items total_amount upsert.2 freshOrderId
    | none => createOrderCommit st1 user_info items total_amount upsert.2 freshOrderId
  else
    (st, .error (.stockInvalid vr.message vr.invalid_items))

/-- The product-existence loop of the edit handlers: first failure wins.
A malformed id raises inside the handlers' catch-all, hence 500. -/
def checkProductsExist (st : Store) : List OrderItem → Except OrderError Unit
  | [] => .ok ()
  | i :: rest =>
      if isValidObjectId i.product_id then
        match findAssoc st.products i.product_id with
        | none => .error (.productNotFound ("Product " ++ i.product_name ++ " not found"))
        | some _ => checkProductsExist st rest
      else .error .internalError

/-- The re-validation loop of the edit handlers, run after the restore:
each new item needs restored stock at least its quantity. A vanished
product would raise (`product["quantity"]` on `None`) into the catch-all
500; sequentially that branch is unreachable. -/
def recheckStock (st : Store) : List OrderItem → Except OrderError Unit
  | [] => .ok ()
  | i :: rest =>
      match findAssoc st.products i.product_id with
      | none => .error .internalError
      | some p =>
          if p.quantity < i.quantity then
            .error (.insufficientStock (onlyAvailableMsg p.name p.quantity i.quantity))
          else recheckStock st rest

/-- The persistence tail shared conceptually by both edit handlers, here
the self-service version: optional user-record update (rehash the
password only when the supplied plaintext no longer verifies against the
stored hash), then the order `$set`. -/
def editOrderCommit (hashPw : String → String)
    (verifyPw : String → String → Bool) (st : Store) (order_id : String)
    (uid : String) (user : UserDoc) (req : UserOrderEditRequest)
    (new_total : ℚ) : Store × Except OrderError OrderDoc :=
  let stU :=
    match req.user_info with
    | none => st
    | some ui =>
        let base := fun (u : UserDoc) =>
          { u with name := ui.name, email := ui.email,
                   phone := ui.phone, address := ui.address }
        let upd :=
          if verifyPw ui.password user.password_hash then base
          else fun u => { base u with password_hash := hashPw ui.password }
        { st with users := updateAssoc st.users uid upd }
  let newOrder := fun (o : OrderDoc) =>
    let o1 := { o with items := req.items, total_amount := new_total }
    match req.user_info with
    | none => o1
    | some ui =>
        { o1 with user_name := ui.name, user_email := ui.email,
                  user_phone := ui.phone, user_address := ui.address }
  let st2 := { stU with orders := updateAssoc stU.orders order_id newOrder }
  match findAssoc st2.orders order_id with
  | some o => (st2, .ok o)
  | none => (st2, .error (.notFound "Order not found"))

/-- Model of `edit_order` (routers/orders.py), the self-service variant: load,
status gate, credential and ownership checks, product existence, restore
original stock, re-validate new quantities (compensating on shortfall),
deduct new stock, minimum-order gate (compensating symmetrically on
failure), then persist. The whole handler body sits in a catch-all that
answers 500 (`internalError`). -/
def edit_order (hashPw : String → String)
    (verifyPw : String → String → Bool) (st : Store) (order_id : String)
    (req : UserOrderEditRequest) : Store × Except OrderError OrderDoc :=
  if isValidObjectId order_id then
    match findAssoc st.orders order_id with
    | none => (st, .error (.notFound "Order not found"))
    | some order =>
        if order.status == "pending" || order.status == "confirmed" then
          match findByEmail st.users req.email with
          | none => (st, .error (.unauthorized "Invalid email or password"))
          | some (uid, user) =>
              if verifyPw req.password user.password_hash then
                if order.user_email == req.email then
                  match checkProductsExist st req.items with
                  | .error e => (st, .error e)
                  | .ok _ =>
                      let st1 := restoreStock st order.items
                      match recheckStock st1 req.items with
                      | .error (.insufficientStock d) =>
                          (deductStock st1 order.items,
                           .error (.insufficientStock d))
                      | .error e => (st1, .error e)
                      | .ok _ =>
                          let st2 := deductStock st1 req.items
                          let new_total := (req.items.map OrderItem.total).sum
                          match findAssoc st2.settings "minimum_order_value" with
                          | some v =>
                              if new_total < v then
                                let st3 := restoreStock st2 req.items
                                (deductStock st3 order.items,
                                 .error (.minOrder (minOrderEditMsg v new_total)))
                              else
                                editOrderCommit hashPw verifyPw st2 order_id
                                  uid user req new_total
                          | none =>
                              editOrderCommit hashPw verifyPw st2 order_id
                                uid user req new_total
                else (st, .error (.forbidden "You can only edit your own orders"))
              else (st, .error (.unauthorized "Invalid email or password"))
        else
          (st, .error (.cannotEdit order.status))
  else (st, .error .internalError)

/-- The persistence tail of the admin edit: the user record (looked up by
the order's original email) gets only name, email, phone and address —
deliberately never `password_hash` — then the order `$set`. -/
def adminEditCommit (st : Store) (order_id : String) (order : OrderDoc)
    (req : OrderEditRequest) (new_total : ℚ) :
    Store × Except OrderError OrderDoc :=
  let stU :=
    match req.user_info with
    | none => st
    | some ui =>
        match findByEmail st.users order.user_email with
        | none => st
        | some (uid, _) =>
            let upd := fun (u : UserDoc) =>
              { u with name := ui.name, email := ui.email,
                       phone := ui.phone, address := ui.address }
            { st with users := updateAssoc st.users uid upd }
  let newOrder := fun (o : OrderDoc) =>
    let o1 := { o with items := req.items, total_amount := new_total }
    match req.user_info with
    | none => o1
    | some ui =>
        { o1 with user_name := ui.name, user_email := ui.email,
                  user_phone := ui.phone, user_address := ui.address }
  let st2 := { stU with orders := updateAssoc stU.orders order_id newOrder }
  match findAssoc st2.orders order_id with
  | some o => (st2, .ok o)
  | none => (st2, .error (.notFound "Order not found"))

/-- Model of `admin_edit_order` (routers/orders.py): like `edit_order` but with no
customer credential check, no minimum-order gate, and a user update that
never touches the password hash. Same catch-all 500. -/
def admin_edit_order (st : Store) (order_id : String)
    (req : OrderEditRequest) : Store × Except OrderError OrderDoc :=
  if isValidObjectId order_id then
    match findAssoc st.orders order_id with
    | none => (st, .error (.notFound "Order not found"))
    | some order =>
        if order.status == "pending" || order.status == "confirmed" then
          match checkProductsExist st req.items with
          | .error e => (st, .error e)
          | .ok _ =>
              let st1 := restoreStock st order.items
              match recheckStock st1 req.items with
              | .error (.insufficientStock d) =>
                  (deductStock st1 order.items, .error (.insufficientStock d))
              | .error e => (st1, .error e)
              | .ok _ =>
                  let st2 := deductStock st1 req.items
                  let new_total := (req.items.map OrderItem.total).sum
                  adminEditCommit st2 order_id order req new_total
        else (st, .error (.cannotEdit order.status))
  else (st, .error .internalError)

/-- Model of `update_order_status` (routers/orders.py): `$set` the status string
verbatim, 404 when nothing matched. No validation of the string and no
exception handler, so a malformed id propagates. -/
def update_order_status (st : Store) (order_id status : String) :
    Store × Except OrderError OrderDoc :=
  if isValidObjectId order_id then
    match findAssoc st.orders order_id with
    | none => (st, .error (.notFound "Order not found"))
    | some _ =>
        let orders1 :=
          updateAssoc st.orders order_id (fun o => { o with status := status })
        let st1 := { st with orders := orders1 }
        match findAssoc st1.orders order_id with
        | some o => (st1, .ok o)
        | none => (st1, .error (.notFound "Order not found"))
  else (st, .error .invalidId)

/-- Model of `delete_order` (routers/orders.py): `delete_one` on the orders
collection only; 404 when nothing was deleted. -/
def delete_order (st : Store) (order_id : String) :
    Store × Except OrderError String :=
  if isValidObjectId order_id then
    match findAssoc st.orders order_id with
    | none => (st, .error (.notFound "Order not found"))
    | some _ =>
        ({ st with orders := removeAssoc st.orders order_id },
         .ok "Order deleted successfully")
  else (st, .error .invalidId)

/-- What one delivery attempt of the mail collaborator does: succeed,
return `False`, or raise a transport fault. -/
inductive AttemptOutcome where
  | success
  | failFalse
  | raised
deriving DecidableEq, Repr

/-- The observable shape of one dispatcher run: attempts consumed, the
sleeps performed in order, and whether the failure flag gets written. -/
structure DispatchTrace where
  attempts : Nat
  delays : List Nat
  flagged : Bool
deriving DecidableEq, Repr

/-- The retry loop of `send_order_email_background`
(services/email_service.py): `max_retries = 3`, `retry_delay = 2`; a
successful send returns at once; a `False` result just falls through to
the next iteration; a raised fault sleeps `retry_delay` and doubles it —
but only when this is not the last attempt. Arguments: remaining fuel,
current attempt index, current delay, sleeps so far (reversed). -/
def retryLoop (outcome : Nat → AttemptOutcome) :
    Nat → Nat → Nat → List Nat → DispatchTrace
  | 0, attempt, _, acc =>
      { attempts := attempt, delays := acc.reverse, flagged := true }
  | fuel + 1, attempt, delay, acc =>
      match outcome attempt with
      | .success =>
          { attempts := attempt + 1, delays := acc.reverse, flagged := false }
      | .failFalse => retryLoop outcome fuel (attempt + 1) delay acc
      | .raised =>
          if attempt < 3 - 1 then
            retryLoop outcome fuel (attempt + 1) (delay * 2) (delay :: acc)
          else retryLoop outcome fuel (attempt + 1) delay acc

/-- Model of `send_order_email_background`: run the retry loop; if every attempt
was exhausted, write `email_notification_failed` and the failure
timestamp onto the order (best effort — the model's `updateAssoc` is a
no-op on a missing order, as the write's errors are swallowed). -/
def send_order_email_background (outcome : Nat → AttemptOutcome)
    (st : Store) (order_id : String) (now : Nat) : Store × DispatchTrace :=
  let t := retryLoop outcome 3 0 2 []
  if t.flagged then
    let flag := fun (o : OrderDoc) =>
      { o with email_notification_failed := true,
               email_failure_timestamp := some now }
    ({ st with orders := updateAssoc st.orders order_id flag }, t)
  else (st, t)

/-! ## Concrete scenario fixtures -/

/-- A well-formed product ObjectId. -/
def pidW : String := "aaaaaaaaaaaaaaaaaaaaaaaa"

/-- A well-formed order ObjectId. -/
def oidW : String := "bbbbbbbbbbbbbbbbbbbbbbbb"

/-- A well-formed user ObjectId. -/
def uidW : String := "cccccccccccccccccccccccc"

/-- A well-formed ObjectId bound to no product. -/
def pidMissing : String := "dddddddddddddddddddddddd"

/-- A concrete stand-in for the auth collaborator's hash function. -/
def hashW : String → String := fun s => s ++ "#"

/-- The matching stand-in for password verification. -/
def verifyW : String → String → Bool := fun p h => h == p ++ "#"

/-- The checkout customer of the scenarios. -/
def uiW : UserCreate :=
  { name := "A", email := "a@x.com", phone := "1", address := "H",
    password := "pw" }

/-- One line item: quantity 2 at price 150, caller-supplied total 300. -/
def itemW : OrderItem :=
  { product_id := pidW, product_name := "P1", quantity := 2, price := 150,
    total := 300 }

/-- Store before checkout: P1 stocked at 10, minimum order value 500, no
users, no orders. -/
def stCreate : Store :=
  { products := [(pidW, { name := "P1", quantity := 10, price := 150 })],
    users := [], orders := [],
    settings := [("minimum_order_value", 500)] }

/-- The order document of the editing scenarios. -/
def odW : OrderDoc :=
  { user_id := "u", user_name := "A", user_email := "a@x.com",
    user_phone := "1", user_address := "H", items := [itemW],
    total_amount := 300, status := "pending",
    email_notification_failed := false, email_failure_timestamp := none }

/-- The owning user document of the editing scenarios. -/
def userW : UserDoc :=
  { name := "A", email := "a@x.com", phone := "1", address := "H",
    password_hash := "pw#" }

/-- Store after `odW` was placed: P1 already decremented to 8. -/
def stEdit : Store :=
  { products := [(pidW, { name := "P1", quantity := 8, price := 150 })],
    users := [(uidW, userW)], orders := [(oidW, odW)], settings := [] }

/-- Variant of `stEdit` with a minimum order value above `odW`'s total. -/
def stEditMin : Store :=
  { stEdit with settings := [("minimum_order_value", 500)] }

/-- The self-service edit that re-submits `odW`'s own item list. -/
def reqSame : UserOrderEditRequest :=
  { items := [itemW], user_info := none, email := "a@x.com",
    password := "pw" }

/-- Store of the stock-shortfall scenario: P1 stocked at 1. -/
def stShort : Store :=
  { products := [(pidW, { name := "P1", quantity := 1, price := 150 })],
    users := [], orders := [], settings := [] }

/-- The shortfall request: 2 of P1. -/
def itShort : StockItem := { product_id := pidW, quantity := 2 }

/-- An oversized edit request: 100 of P1 against restored stock 10. -/
def bigItem : OrderItem :=
  { product_id := pidW, product_name := "P1", quantity := 100, price := 150,
    total := 15000 }

/-- The self-service edit that requests `bigItem`. -/
def reqBig : UserOrderEditRequest :=
  { items := [bigItem], user_info := none, email := "a@x.com",
    password := "pw" }

/-- The admin edit of the scenarios: new items plus a `new_user_info`
carrying a changed name and a changed password. -/
def reqAdmin : OrderEditRequest :=
  { items := [itemW],
    user_info := some { name := "B", email := "a@x.com", phone := "2",
                        address := "J", password := "newpw" } }

/-! ## Store laws -/

theorem findAssoc_updateAssoc_self {α : Type} (l : List (String × α))
    (k : String) (f : α → α) :
    findAssoc (updateAssoc l k f) k = (findAssoc l k).map f := by
  induction l with
  | nil => rfl
  | cons hd tl ih =>
      obtain ⟨k0, v⟩ := hd
      by_cases h : k0 = k
      · subst h
        simp [findAssoc, updateAssoc]
      · simp [findAssoc, updateAssoc, h, ih]

theorem findAssoc_updateAssoc_ne {α : Type} (l : List (String × α))
    (k k' : String) (f : α → α) (h : k' ≠ k) :
    findAssoc (updateAssoc l k f) k' = findAssoc l k' := by
  induction l with
  | nil => rfl
  | cons hd tl ih =>
      obtain ⟨k0, v⟩ := hd
      by_cases hk : k0 = k
      · subst hk
        have : k0 ≠ k' := fun he => h (he.symm)
        simp [findAssoc, updateAssoc, this]
      · simp [findAssoc, updateAssoc, hk, ih]

/-- A field-preserving `update_one` preserves that field at every key. -/
theorem findAssoc_update_hash (l : List (String × UserDoc)) (k : String)
    (f : UserDoc → UserDoc)
    (hf : ∀ u, (f u).password_hash = u.password_hash)
    (k' : String) (u : UserDoc) (h : findAssoc l k' = some u) :
    ∃ u', findAssoc (updateAssoc l k f) k' = some u' ∧
      u'.password_hash = u.password_hash := by
  by_cases hk : k' = k
  · subst hk
    refine ⟨f u, ?_, hf u⟩
    rw [findAssoc_updateAssoc_self, h]
    rfl
  · exact ⟨u, by rw [findAssoc_updateAssoc_ne l k k' f hk]; exact h, rfl⟩

@[simp] theorem foldIncQty_nil (ps : List (String × ProductDoc))
    (f : OrderItem → Int) : foldIncQty ps f [] = ps := rfl

@[simp] theorem foldIncQty_cons (ps : List (String × ProductDoc))
    (f : OrderItem → Int) (i : OrderItem) (l : List OrderItem) :
    foldIncQty ps f (i :: l) =
      foldIncQty (incProductQty ps i.product_id (f i)) f l := rfl

theorem incProductQty_add (ps : List (String × ProductDoc)) (k : String)
    (d e : Int) :
    incProductQty (incProductQty ps k d) k e = incProductQty ps k (d + e) := by
  induction ps with
  | nil => rfl
  | cons hd tl ih =>
      obtain ⟨k0, p⟩ := hd
      by_cases h : k0 = k
      · subst h
        simp [incProductQty, updateAssoc, add_assoc]
      · simp [incProductQty, updateAssoc, h] at ih ⊢
        exact ih

theorem incProductQty_zero (ps : List (String × ProductDoc)) (k : String) :
    incProductQty ps k 0 = ps := by
  induction ps with
  | nil => rfl
  | cons hd tl ih =>
      obtain ⟨k0, p⟩ := hd
      by_cases h : k0 = k
      · subst h
        simp [incProductQty, updateAssoc]
      · simp [incProductQty, updateAssoc, h] at ih ⊢
        exact ih

theorem incProductQty_comm (ps : List (String × ProductDoc)) (k k' : String)
    (d d' : Int) :
    incProductQty (incProductQty ps k d) k' d' =
      incProductQty (incProductQty ps k' d') k d := by
  by_cases hkk : k' = k
  · subst hkk
    rw [incProductQty_add, incProductQty_add, add_comm]
  · induction ps with
    | nil => rfl
    | cons hd tl ih =>
        obtain ⟨k0, p⟩ := hd
        by_cases h1 : k0 = k
        · subst h1
          have h2 : k0 ≠ k' := fun he => hkk he.symm
          simp [incProductQty, updateAssoc, h2]
        · by_cases h2 : k0 = k'
          · subst h2
            simp [incProductQty, updateAssoc, h1]
          · simp [incProductQty, updateAssoc, h1, h2] at ih ⊢
            exact ih

theorem incProductQty_foldIncQty (ps : List (String × ProductDoc))
    (f : OrderItem → Int) (l : List OrderItem) (k : String) (d : Int) :
    incProductQty (foldIncQty ps f l) k d =
      foldIncQty (incProductQty ps k d) f l := by
  induction l generalizing ps with
  | nil => rfl
  | cons i l ih =>
      rw [foldIncQty_cons, foldIncQty_cons, ih, incProductQty_comm]

/-- Equal per-item increments in opposite signs cancel: the algebra behind
the edit workflow's restore / re-deduct symmetry. -/
theorem foldIncQty_cancel (ps : List (String × ProductDoc))
    (f g : OrderItem → Int) (l : List OrderItem)
    (hfg : ∀ i, g i = - f i) :
    foldIncQty (foldIncQty ps f l) g l = ps := by
  induction l generalizing ps with
  | nil => rfl
  | cons i l ih =>
      rw [foldIncQty_cons, foldIncQty_cons, incProductQty_foldIncQty,
        incProductQty_add, hfg i]
      simp only [add_neg_cancel]
      rw [incProductQty_zero]
      exact ih ps

/-- Deducting what was just restored returns the store bit-for-bit. -/
theorem deductStock_restoreStock (st : Store) (l : List OrderItem) :
    deductStock (restoreStock st l) l = st := by
  have h := foldIncQty_cancel st.products (fun i => i.quantity)
    (fun i => -i.quantity) l (fun _ => rfl)
  cases st
  simp only [deductStock, restoreStock] at *
  simp [h]

/-- Restoring what was just deducted returns the store bit-for-bit. -/
theorem restoreStock_deductStock (st : Store) (l : List OrderItem) :
    restoreStock (deductStock st l) l = st := by
  have h := foldIncQty_cancel st.products (fun i => -i.quantity)
    (fun i => i.quantity) l (fun i => (neg_neg i.quantity).symm)
  cases st
  simp only [deductStock, restoreStock] at *
  simp [h]

/-! ## Handler path lemmas -/

/-- The create commit never fails and returns the freshly built order. -/
theorem createOrderCommit_snd (st : Store) (ui : UserCreate)
    (items : List OrderItem) (t : ℚ) (uid fo : String) :
    ∃ od, (createOrderCommit st ui items t uid fo).2 = .ok od := by
  exact ⟨_, rfl⟩

/-- The create commit leaves users and settings alone and only appends to
the orders collection and decrements products. -/
theorem createOrderCommit_frame (st : Store) (ui : UserCreate)
    (items : List OrderItem) (t : ℚ) (uid fo : String) :
    (createOrderCommit st ui items t uid fo).1.users = st.users ∧
    (createOrderCommit st ui items t uid fo).1.settings = st.settings := by
  constructor <;> rfl

/-- The self-service persistence tail never touches products. -/
theorem editOrderCommit_products (hashPw : String → String)
    (verifyPw : String → String → Bool) (st : Store) (oid uid : String)
    (user : UserDoc) (req : UserOrderEditRequest) (nt : ℚ) :
    (editOrderCommit hashPw verifyPw st oid uid user req nt).1.products =
      st.products := by
  unfold editOrderCommit
  cases hui : req.user_info <;> simp only [hui] <;> split <;> rfl

/-- The self-service persistence tail leaves the orders collection of any
pre-update store visible: its order `$set` is over the user-updated store
whose orders are unchanged. -/
theorem editOrderCommit_orders (hashPw : String → String)
    (verifyPw : String → String → Bool) (st : Store) (oid uid : String)
    (user : UserDoc) (req : UserOrderEditRequest) (nt : ℚ) :
    ∃ g : OrderDoc → OrderDoc,
      (editOrderCommit hashPw verifyPw st oid uid user req nt).1.orders =
        updateAssoc st.orders oid g := by
  unfold editOrderCommit
  cases hui : req.user_info <;> simp only [hui] <;> split <;> exact ⟨_, rfl⟩

/-- When the edited order exists, the self-service persistence tail
answers `ok` with an order whose total is the recomputed one. -/
theorem editOrderCommit_ok (hashPw : String → String)
    (verifyPw : String → String → Bool) (st : Store) (oid uid : String)
    (user : UserDoc) (req : UserOrderEditRequest) (nt : ℚ) (od : OrderDoc)
    (hod : findAssoc st.orders oid = some od) :
    ∃ od', (editOrderCommit hashPw verifyPw st oid uid user req nt).2 = .ok od' ∧
      od'.total_amount = nt := by
  unfold editOrderCommit
  cases hui : req.user_info with
  | none =>
      simp only
      rw [findAssoc_updateAssoc_self, hod]
      exact ⟨_, rfl, rfl⟩
  | some ui =>
      simp only
      rw [findAssoc_updateAssoc_self, hod]
      exact ⟨_, rfl, rfl⟩

/-- The re-validation loop only ever fails with an insufficient-stock
detail or the catch-all 500. -/
theorem recheckStock_error_shape (st : Store) (l : List OrderItem)
    (e : OrderError) (h : recheckStock st l = .error e) :
    (∃ d, e = .insufficientStock d) ∨ e = .internalError := by
  induction l with
  | nil => simp [recheckStock] at h
  | cons i l ih =>
      rw [recheckStock] at h
      split at h
      · cases h
        exact Or.inr rfl
      · split at h
        · cases h
          exact Or.inl ⟨_, rfl⟩
        · exact ih h

/-- Bounded retries: the dispatcher loop performs at most
`attempt + fuel` attempts. -/
theorem retryLoop_attempts_le (outcome : Nat → AttemptOutcome) (fuel : Nat) :
    ∀ attempt delay acc,
      (retryLoop outcome fuel attempt delay acc).attempts ≤ attempt + fuel := by
  induction fuel with
  | zero => intro attempt delay acc; simp [retryLoop]
  | succ n ih =>
      intro attempt delay acc
      rw [retryLoop]
      rcases outcome attempt with _ | _ | _
      · simp only
        omega
      · simp only
        have := ih (attempt + 1) delay acc
        omega
      · simp only
        split
        · have := ih (attempt + 1) (delay * 2) (delay :: acc)
          omega
        · have := ih (attempt + 1) delay acc
          omega

/-! ## Claims -/

/-- C4. `validate_stock` returns `valid=true` iff zero invalid
entries accumulate (and `invalid_items` is exactly the accumulation);
per requested item: a malformed identifier gives an "Invalid product ID"
entry with the exception caught rather than propagated, a missing
product an entry with available quantity 0 and error "Product not
found", a product with quantity ≤ 0 an out-of-stock entry, and a
product with quantity below the request an entry carrying both the
available and the requested quantity. -/
theorem validate_stock_cases (st : Store) (items : List StockItem)
    (it : StockItem) :
    ((validate_stock st items).valid = true ↔
      (validate_stock st items).invalid_items = [])
    ∧ (validate_stock st items).invalid_items =
        items.filterMap (validateStockItem st)
    ∧ (isValidObjectId it.product_id = false →
        validateStockItem st it = some
          { product_id := it.product_id, product_name := none,
            requested_quantity := it.quantity, available_quantity := 0,
            error := "Invalid product ID" })
    ∧ (isValidObjectId it.product_id = true →
        findAssoc st.products it.product_id = none →
        validateStockItem st it = some
          { product_id := it.product_id, product_name := none,
            requested_quantity := it.quantity, available_quantity := 0,
            error := "Product not found" })
    ∧ (∀ p, isValidObjectId it.product_id = true →
        findAssoc st.products it.product_id = some p → p.quantity ≤ 0 →
        validateStockItem st it = some
          { product_id := it.product_id, product_name := some p.name,
            requested_quantity := it.quantity,
            available_quantity := p.quantity,
            error := outOfStockMsg p.name })
    ∧ (∀ p, isValidObjectId it.product_id = true →
        findAssoc st.products it.product_id = some p → 0 < p.quantity →
        p.quantity < it.quantity →
        validateStockItem st it = some
          { product_id := it.product_id, product_name := some p.name,
            requested_quantity := it.quantity,
            available_quantity := p.quantity,
            error := onlyAvailableMsg p.name p.quantity it.quantity }) := by
  refine ⟨?_, ?_, ?_, ?_, ?_, ?_⟩
  · cases hfm : items.filterMap (validateStockItem st) with
    | nil => simp [validate_stock, hfm]
    | cons x xs => simp [validate_stock, hfm]
  · cases hfm : items.filterMap (validateStockItem st) with
    | nil => simp [validate_stock, hfm]
    | cons x xs => simp [validate_stock, hfm]
  · intro hid
    simp [validateStockItem, hid]
  · intro hid hfa
    simp [validateStockItem, hid, hfa]
  · intro p hid hfa hq
    simp [validateStockItem, hid, hfa, hq]
  · intro p hid hfa hpos hlt
    simp [validateStockItem, hid, hfa, hlt, not_le.mpr hpos]

/-- C4 at the spec's concrete scenario: stock 1, request 2 gives the
single invalid entry with `available_quantity = 1`,
`requested_quantity = 2`; and concrete instances of the malformed-id and
missing-product cases. -/
theorem validate_stock_cases_witness :
    validateStockItem stShort itShort = some
      { product_id := pidW, product_name := some "P1",
        requested_quantity := 2, available_quantity := 1,
        error := "P1 has only 1 items available, but you requested 2" }
    ∧ validateStockItem stCreate { product_id := "zz", quantity := 1 } = some
      { product_id := "zz", product_name := none, requested_quantity := 1,
        available_quantity := 0, error := "Invalid product ID" }
    ∧ validateStockItem stCreate { product_id := pidMissing, quantity := 1 } =
      some { product_id := pidMissing, product_name := none,
             requested_quantity := 1, available_quantity := 0,
             error := "Product not found" } := by
  refine ⟨?_, ?_, ?_⟩
  · exact (validate_stock_cases stShort [] itShort).2.2.2.2.2
      { name := "P1", quantity := 1, price := 150 }
      (by decide) (by decide) (by decide) (by decide)
  · exact (validate_stock_cases stCreate []
      { product_id := "zz", quantity := 1 }).2.2.1 (by decide)
  · exact (validate_stock_cases stCreate []
      { product_id := pidMissing, quantity := 1 }).2.2.2.1
      (by decide) (by decide)

/-- C7. Stock validation is monotonic with respect to order creation:
`create_order` runs `validate_stock` itself as its stock gate, so a
validation pass over the same items and store means creation cannot fail
on stock grounds. -/
theorem create_order_no_stock_failure (hashPw : String → String)
    (st : Store) (ui : UserCreate) (items : List OrderItem)
    (fu fo : String)
    (h : (validate_stock st (orderToStockItems items)).valid = true) :
    ∀ m inv, (create_order hashPw st ui items fu fo).2 ≠
      .error (.stockInvalid m inv) := by
  intro m inv
  simp only [create_order, h, if_true]
  rcases findByEmail st.users ui.email with _ | ⟨uid, u⟩ <;>
    simp only <;>
    rcases findAssoc st.settings "minimum_order_value" with _ | v <;>
    simp only
  · intro hc
    obtain ⟨od, hod⟩ := createOrderCommit_snd _ ui items _ _ fo
    rw [hod] at hc
    cases hc
  · split
    · intro hc
      cases hc
    · intro hc
      obtain ⟨od, hod⟩ := createOrderCommit_snd _ ui items _ _ fo
      rw [hod] at hc
      cases hc
  · intro hc
    obtain ⟨od, hod⟩ := createOrderCommit_snd _ ui items _ _ fo
    rw [hod] at hc
    cases hc
  · split
    · intro hc
      cases hc
    · intro hc
      obtain ⟨od, hod⟩ := createOrderCommit_snd _ ui items _ _ fo
      rw [hod] at hc
      cases hc

/-- C7 witness: the scenario store validates items = [2 of P1] and
creation on them indeed does not answer a stock error. -/
theorem create_order_no_stock_failure_witness :
    (create_order hashW stCreate uiW [itemW] uidW oidW).2 ≠
      .error (.stockInvalid "x" []) :=
  create_order_no_stock_failure hashW stCreate uiW [itemW] uidW oidW
    (by decide) "x" []

/-- C9 counterexample: a status update addressed by a string that is
not a valid ObjectId fails with the uncaught `InvalidId` raise (a 500),
not with the 404 not-found error — so "the only failure condition is
that the order does not exist (404)" does not hold as stated. -/
theorem update_order_status_malformed_id_raises :
    update_order_status stEdit "not-an-object-id" "shipped" =
      (stEdit, .error .invalidId)
    ∧ OrderError.invalidId ≠ OrderError.notFound "Order not found" := by
  exact ⟨rfl, by decide⟩

/-- C9 (amended). The admin status update validates nothing about the
status string: for every string `s`, updating an existing order sets its
status to `s` verbatim, enum or not; for a well-formed id the only
failure is order-not-found (404); a malformed id instead raises out of
the handler (500). -/
theorem update_order_status_spec (st : Store) (oid s : String) :
    (∀ od, isValidObjectId oid = true →
      findAssoc st.orders oid = some od →
      update_order_status st oid s =
        ({ st with orders :=
            updateAssoc st.orders oid (fun o => { o with status := s }) },
         .ok { od with status := s }))
    ∧ (isValidObjectId oid = true → findAssoc st.orders oid = none →
      update_order_status st oid s = (st, .error (.notFound "Order not found")))
    ∧ (isValidObjectId oid = false →
      update_order_status st oid s = (st, .error .invalidId)) := by
  refine ⟨?_, ?_, ?_⟩
  · intro od hval hod
    simp only [update_order_status, hval, if_true, hod]
    rw [findAssoc_updateAssoc_self, hod]
    rfl
  · intro hval hod
    simp only [update_order_status, hval, if_true, hod]
  · intro hval
    simp only [update_order_status, hval, Bool.false_eq_true, if_false]

/-- C9 witness: the out-of-enum string "garbage-status" is persisted
verbatim on the existing scenario order. -/
theorem update_order_status_spec_witness :
    update_order_status stEdit oidW "garbage-status" =
      ({ stEdit with
          orders := updateAssoc stEdit.orders oidW (fun o => { o with status := "garbage-status" }) },
       .ok { odW with status := "garbage-status" }) :=
  (update_order_status_spec stEdit oidW "garbage-status").1 odW
    (by decide) (by decide)

/-- C10. Deleting an order removes only the order document: the
products (hence every stock counter), users and settings collections are
unchanged on every path, and on success the store differs from the
initial one exactly by the removed order — the stock decrement made at
creation is never restored. -/
theorem delete_order_frame (st : Store) (oid : String) :
    (delete_order st oid).1.products = st.products
    ∧ (delete_order st oid).1.users = st.users
    ∧ (delete_order st oid).1.settings = st.settings
    ∧ (∀ od, isValidObjectId oid = true →
        findAssoc st.orders oid = some od →
        delete_order st oid =
          ({ st with orders := removeAssoc st.orders oid },
           .ok "Order deleted successfully")) := by
  refine ⟨?_, ?_, ?_, ?_⟩
  · unfold delete_order
    split
    · split <;> rfl
    · rfl
  · unfold delete_order
    split
    · split <;> rfl
    · rfl
  · unfold delete_order
    split
    · split <;> rfl
    · rfl
  · intro od hval hod
    simp only [delete_order, hval, if_true, hod]

/-- C10 witness: deleting the scenario order leaves P1's quantity at
its post-checkout value 8. -/
theorem delete_order_frame_witness :
    delete_order stEdit oidW =
      ({ stEdit with orders := removeAssoc stEdit.orders oidW },
       .ok "Order deleted successfully")
    ∧ (delete_order stEdit oidW).1.products = stEdit.products :=
  ⟨(delete_order_frame stEdit oidW).2.2.2 odW (by decide) (by decide),
   (delete_order_frame stEdit oidW).1⟩

/-- C5. With a `minimum_order_value` setting present and the stock
gate passed, `create_order` rejects exactly when the computed total is
strictly below the threshold — equality is accepted — and the rejection
detail is the message embedding the threshold and the total rendered to
whole currency units (`minOrderCreateMsg`, built from `fmtWhole` of
both). -/
theorem create_order_min_order_boundary (hashPw : String → String)
    (st : Store) (ui : UserCreate) (items : List OrderItem)
    (fu fo : String) (v : ℚ)
    (hvalid : (validate_stock st (orderToStockItems items)).valid = true)
    (hset : findAssoc st.settings "minimum_order_value" = some v) :
    ((∃ od, (create_order hashPw st ui items fu fo).2 = .ok od) ↔
      ¬ (items.map OrderItem.total).sum < v)
    ∧ ((items.map OrderItem.total).sum < v →
      (create_order hashPw st ui items fu fo).2 =
        .error (.minOrder
          (minOrderCreateMsg v ((items.map OrderItem.total).sum)))) := by
  simp only [create_order, hvalid, if_true]
  rcases findByEmail st.users ui.email with _ | ⟨uid, u⟩ <;>
      simp only [hset] <;>
      by_cases ht : (items.map OrderItem.total).sum < v
  · rw [if_pos ht]
    refine ⟨⟨(fun he => ?_), fun h => absurd ht h⟩, fun _ => rfl⟩
    obtain ⟨od, h⟩ := he
    cases h
  · rw [if_neg ht]
    refine ⟨⟨fun _ => ht, fun _ => ?_⟩, fun h => absurd h ht⟩
    exact createOrderCommit_snd _ ui items _ _ fo
  · rw [if_pos ht]
    refine ⟨⟨(fun he => ?_), fun h => absurd ht h⟩, fun _ => rfl⟩
    obtain ⟨od, h⟩ := he
    cases h
  · rw [if_neg ht]
    refine ⟨⟨fun _ => ht, fun _ => ?_⟩, fun h => absurd h ht⟩
    exact createOrderCommit_snd _ ui items _ _ fo

/-- C5 witness, the spec's scenario: threshold 500 against total 300
rejects with "500" and "300" in the message; raising the total to
exactly 500 is accepted (strict `<` is the only rejection). -/
theorem create_order_min_order_boundary_witness :
    (create_order hashW stCreate uiW [itemW] uidW oidW).2 =
      .error (.minOrder (minOrderCreateMsg 500 300))
    ∧ (∃ od, (create_order hashW stCreate uiW
        [{ itemW with total := 500 }] uidW oidW).2 = .ok od) := by
  constructor
  · have h := (create_order_min_order_boundary hashW stCreate uiW [itemW]
      uidW oidW 500 (by decide) (by decide)).2 (by norm_num [itemW])
    simpa [itemW] using h
  · exact ((create_order_min_order_boundary hashW stCreate uiW
      [{ itemW with total := 500 }] uidW oidW 500 (by decide)
      (by decide)).1).mpr (by norm_num [itemW])

/-- C1 counterexample: a request that passes the stock gate but fails
the minimum-order-value check has already committed the user upsert —
here the brand-new customer's user document is inserted before the 400
is raised, so "no user document is inserted or updated" fails. -/
theorem create_order_min_order_failure_commits_user :
    (create_order hashW stCreate uiW [itemW] uidW oidW).2 =
      .error (.minOrder (minOrderCreateMsg 500 300))
    ∧ (create_order hashW stCreate uiW [itemW] uidW oidW).1.users ≠
      stCreate.users := by
  constructor
  · have h := (create_order_min_order_boundary hashW stCreate uiW [itemW]
      uidW oidW 500 (by decide) (by decide)).2 (by norm_num [itemW])
    simpa [itemW] using h
  · have hv : (validate_stock stCreate (orderToStockItems [itemW])).valid =
        true := by decide
    have hlt : (List.map OrderItem.total [itemW]).sum < (500 : ℚ) := by
      norm_num [itemW]
    have hfe : findByEmail stCreate.users uiW.email = none := rfl
    have hms : findAssoc stCreate.settings "minimum_order_value" =
        some 500 := rfl
    simp only [create_order, hv, if_true, hfe, hms, if_pos hlt]
    simp [stCreate]

/-- C1 (amended). A stock-validation failure aborts `create_order`
with no store write at all; a minimum-order-value failure leaves the
orders and products collections untouched (no order insert, no quantity
change) but has already committed the user upsert of step 2. -/
theorem create_order_failure_effects (hashPw : String → String)
    (st : Store) (ui : UserCreate) (items : List OrderItem)
    (fu fo : String) :
    ((validate_stock st (orderToStockItems items)).valid = false →
      create_order hashPw st ui items fu fo =
        (st, .error (.stockInvalid
          (validate_stock st (orderToStockItems items)).message
          (validate_stock st (orderToStockItems items)).invalid_items)))
    ∧ (∀ d, (create_order hashPw st ui items fu fo).2 =
        .error (.minOrder d) →
      (create_order hashPw st ui items fu fo).1.orders = st.orders ∧
      (create_order hashPw st ui items fu fo).1.products = st.products) := by
  constructor
  · intro h
    simp only [create_order, h, Bool.false_eq_true, if_false]
  · intro d hd
    cases hv : (validate_stock st (orderToStockItems items)).valid
    · simp only [create_order, hv, Bool.false_eq_true, if_false] at hd
      cases hd
    · simp only [create_order, hv, if_true] at hd ⊢
      rcases hfe : findByEmail st.users ui.email with _ | ⟨uid, u⟩ <;>
        simp only [hfe] at hd ⊢ <;>
        rcases hms : findAssoc st.settings "minimum_order_value"
          with _ | v <;> simp only [hms] at hd ⊢
      · obtain ⟨od, hok⟩ := createOrderCommit_snd _ ui items _ _ fo
        rw [hok] at hd
        cases hd
      · by_cases ht : (items.map OrderItem.total).sum < v
        · rw [if_pos ht]
          exact ⟨rfl, rfl⟩
        · rw [if_neg ht] at hd
          obtain ⟨od, hok⟩ := createOrderCommit_snd _ ui items _ _ fo
          rw [hok] at hd
          cases hd
      · obtain ⟨od, hok⟩ := createOrderCommit_snd _ ui items _ _ fo
        rw [hok] at hd
        cases hd
      · by_cases ht : (items.map OrderItem.total).sum < v
        · rw [if_pos ht]
          exact ⟨rfl, rfl⟩
        · rw [if_neg ht] at hd
          obtain ⟨od, hok⟩ := createOrderCommit_snd _ ui items _ _ fo
          rw [hok] at hd
          cases hd

/-- C1 witness: a stock-invalid request (2 of an out-of-stock P1)
commits nothing — the returned store is the input store. -/
theorem create_order_failure_effects_witness :
    create_order hashW stShort uiW [itemW] uidW oidW =
      (stShort, .error (.stockInvalid
        (validate_stock stShort (orderToStockItems [itemW])).message
        (validate_stock stShort (orderToStockItems [itemW])).invalid_items)) :=
  (create_order_failure_effects hashW stShort uiW [itemW] uidW oidW).1
    (by decide)

/-- C3 counterexample: with a mail collaborator that always returns
`False` without raising, the dispatcher's three attempts run with no
sleep at all — the sleep sits in the exception branch only — so the
attempts are not separated by delays 2, 4, 8. -/
theorem dispatcher_false_returns_no_backoff :
    retryLoop (fun _ => AttemptOutcome.failFalse) 3 0 2 [] =
      { attempts := 3, delays := [], flagged := true }
    ∧ (retryLoop (fun _ => AttemptOutcome.failFalse) 3 0 2 []).delays ≠
      [2, 4, 8] := by
  exact ⟨rfl, by decide⟩

/-- C3 (amended). The dispatcher attempts delivery at most 3 times;
a backoff delay (2, then doubled to 4, none after the final attempt) is
slept only after an attempt that *raised*; when the collaborator always
returns `False` the three attempts run back-to-back with no delays —
and after exhaustion the order document gains
`email_notification_failed = true` with a failure timestamp. -/
theorem send_order_email_retry_behavior (outcome : Nat → AttemptOutcome)
    (st : Store) (oid : String) (now : Nat) :
    (retryLoop outcome 3 0 2 []).attempts ≤ 3
    ∧ retryLoop (fun _ => AttemptOutcome.failFalse) 3 0 2 [] =
        { attempts := 3, delays := [], flagged := true }
    ∧ retryLoop (fun _ => AttemptOutcome.raised) 3 0 2 [] =
        { attempts := 3, delays := [2, 4], flagged := true }
    ∧ (∀ od, findAssoc st.orders oid = some od →
        (retryLoop outcome 3 0 2 []).flagged = true →
        findAssoc (send_order_email_background outcome st oid now).1.orders
            oid =
          some { od with email_notification_failed := true,
                         email_failure_timestamp := some now }) := by
  refine ⟨?_, rfl, rfl, ?_⟩
  · simpa using retryLoop_attempts_le outcome 3 0 2 []
  · intro od hod hfl
    simp only [send_order_email_background, hfl, if_true]
    rw [findAssoc_updateAssoc_self, hod]
    rfl

/-- C3 witness: the always-`False` run against the scenario store
flags the order with the failure timestamp. -/
theorem send_order_email_retry_behavior_witness :
    findAssoc (send_order_email_background (fun _ => AttemptOutcome.failFalse)
        stEdit oidW 7).1.orders oidW =
      some { odW with email_notification_failed := true,
                      email_failure_timestamp := some 7 } :=
  (send_order_email_retry_behavior (fun _ => AttemptOutcome.failFalse)
    stEdit oidW 7).2.2.2 odW (by decide) rfl

/-- Any `edit_order` failure other than the catch-all 500 leaves the
products collection — every stock counter — exactly as before the call:
pre-restore failures never write, and both post-restore failures
compensate symmetrically. -/
theorem edit_order_error_keeps_products (hashPw : String → String)
    (verifyPw : String → String → Bool) (st : Store) (oid : String)
    (req : UserOrderEditRequest) (st' : Store) (e : OrderError)
    (he : edit_order hashPw verifyPw st oid req = (st', .error e))
    (hne : e ≠ .internalError) : st'.products = st.products := by
  simp only [edit_order] at he
  split at he
  case isFalse =>
    cases he
    rfl
  case isTrue =>
    split at he
    case h_1 =>
      cases he
      rfl
    case h_2 order hord =>
      split at he
      case isFalse =>
        cases he
        rfl
      case isTrue =>
        split at he
        case h_1 =>
          cases he
          rfl
        case h_2 uid user hfe =>
          split at he
          case isFalse =>
            cases he
            rfl
          case isTrue =>
            split at he
            case isFalse =>
              cases he
              rfl
            case isTrue =>
              split at he
              case h_1 e0 hchk =>
                cases he
                rfl
              case h_2 hchk =>
                split at he
                case h_1 d hrc =>
                  cases he
                  rw [deductStock_restoreStock]
                case h_2 e0 hdis heq =>
                  cases he
                  rcases recheckStock_error_shape _ _ _ heq with ⟨d, hd⟩ | hd
                  · exact (hdis d hd).elim
                  · exact (hne hd).elim
                case h_3 hrc =>
                  have hord2 : findAssoc
                      (deductStock (restoreStock st order.items)
                        req.items).orders oid = some order := hord
                  split at he
                  case h_1 v hms =>
                    split at he
                    case isTrue =>
                      cases he
                      rw [restoreStock_deductStock, deductStock_restoreStock]
                    case isFalse =>
                      obtain ⟨od', hok, _⟩ := editOrderCommit_ok hashPw
                        verifyPw _ oid uid user req _ order hord2
                      rw [he] at hok
                      cases hok
                  case h_2 hms =>
                    obtain ⟨od', hok, _⟩ := editOrderCommit_ok hashPw
                      verifyPw _ oid uid user req _ order hord2
                    rw [he] at hok
                    cases hok

/-- C2. If a self-service edit fails after the restore step — at the
re-validation of the new quantities or at the minimum-order-value check —
the compensation writes leave every product exactly as before the edit
attempt (sequential execution is inherent to the model). -/
theorem edit_order_failure_restores_stock (hashPw : String → String)
    (verifyPw : String → String → Bool) (st : Store) (oid : String)
    (req : UserOrderEditRequest) :
    (∀ d, (edit_order hashPw verifyPw st oid req).2 =
        .error (.insufficientStock d) →
      (edit_order hashPw verifyPw st oid req).1.products = st.products)
    ∧ (∀ d, (edit_order hashPw verifyPw st oid req).2 =
        .error (.minOrder d) →
      (edit_order hashPw verifyPw st oid req).1.products = st.products) := by
  constructor
  · intro d hd
    have he : edit_order hashPw verifyPw st oid req =
        ((edit_order hashPw verifyPw st oid req).1,
         .error (.insufficientStock d)) := by
      rw [← hd]
    exact edit_order_error_keeps_products hashPw verifyPw st oid req _ _ he
      (by simp)
  · intro d hd
    have he : edit_order hashPw verifyPw st oid req =
        ((edit_order hashPw verifyPw st oid req).1,
         .error (.minOrder d)) := by
      rw [← hd]
    exact edit_order_error_keeps_products hashPw verifyPw st oid req _ _ he
      (by simp)

/-- C2 witness: the oversized edit fails re-validation and P1's
quantity ends bit-for-bit at its pre-edit value 8. -/
theorem edit_order_failure_restores_stock_witness :
    (edit_order hashW verifyW stEdit oidW reqBig).1.products =
      stEdit.products :=
  (edit_order_failure_restores_stock hashW verifyW stEdit oidW reqBig).1
    (onlyAvailableMsg "P1" 10 100) (by rfl)

/-- C6. Editing an order to exactly its current item list is a
no-op on stock and total: for any order satisfying the data-model
invariant `total_amount = Σ item.total` (§3 of the spec), a successful
self-service edit that re-submits the order's own items leaves every
product's quantity and the order's `total_amount` unchanged. -/
theorem edit_order_same_items_identity (hashPw : String → String)
    (verifyPw : String → String → Bool) (st : Store) (oid : String)
    (od : OrderDoc) (req : UserOrderEditRequest)
    (hod : findAssoc st.orders oid = some od)
    (hitems : req.items = od.items)
    (hinv : od.total_amount = (od.items.map OrderItem.total).sum) :
    ∀ st' od', edit_order hashPw verifyPw st oid req = (st', .ok od') →
      st'.products = st.products ∧ od'.total_amount = od.total_amount := by
  intro st' od' he
  simp only [edit_order, hod] at he
  split at he
  case isFalse => simp at he
  case isTrue =>
    split at he
    case isFalse => simp at he
    case isTrue =>
      split at he
      case h_1 => simp at he
      case h_2 uid user hfe =>
        split at he
        case isFalse => simp at he
        case isTrue =>
          split at he
          case isFalse => simp at he
          case isTrue =>
            split at he
            case h_1 => simp at he
            case h_2 hchk =>
              split at he
              case h_1 => simp at he
              case h_2 => simp at he
              case h_3 hrc =>
                have hord2 : findAssoc
                    (deductStock (restoreStock st od.items)
                      req.items).orders oid = some od := hod
                split at he
                case h_1 v hms =>
                  split at he
                  case isTrue => simp at he
                  case isFalse =>
                    obtain ⟨od'', hok, htot⟩ := editOrderCommit_ok hashPw
                      verifyPw _ oid uid user req _ od hord2
                    have hfst := congrArg Prod.fst he
                    have hsnd := congrArg Prod.snd he
                    simp only at hfst hsnd
                    rw [hok] at hsnd
                    cases hsnd
                    refine ⟨?_, ?_⟩
                    · rw [← hfst, editOrderCommit_products]
                      show (deductStock (restoreStock st od.items)
                        req.items).products = st.products
                      rw [hitems, deductStock_restoreStock]
                    · rw [htot, hitems, ← hinv]
                case h_2 hms =>
                  obtain ⟨od'', hok, htot⟩ := editOrderCommit_ok hashPw
                    verifyPw _ oid uid user req _ od hord2
                  have hfst := congrArg Prod.fst he
                  have hsnd := congrArg Prod.snd he
                  simp only at hfst hsnd
                  rw [hok] at hsnd
                  cases hsnd
                  refine ⟨?_, ?_⟩
                  · rw [← hfst, editOrderCommit_products]
                    show (deductStock (restoreStock st od.items)
                      req.items).products = st.products
                    rw [hitems, deductStock_restoreStock]
                  · rw [htot, hitems, ← hinv]

/-- C6 witness: re-submitting `odW`'s own single item succeeds and
leaves P1 at quantity 8 and the total at 300. -/
theorem edit_order_same_items_identity_witness :
    ∃ st' od', edit_order hashW verifyW stEdit oidW reqSame =
        (st', .ok od')
      ∧ st'.products = stEdit.products
      ∧ od'.total_amount = odW.total_amount := by
  refine ⟨_, _, rfl, ?_⟩
  exact edit_order_same_items_identity hashW verifyW stEdit oidW odW reqSame
    rfl rfl (by simp [odW, itemW]) _ _ rfl

/-- The admin persistence tail either leaves the users collection alone
or applies a single hash-preserving `$set` of name, email, phone and
address. -/
theorem adminEditCommit_users (st : Store) (oid : String) (order : OrderDoc)
    (req : OrderEditRequest) (nt : ℚ) :
    (adminEditCommit st oid order req nt).1.users = st.users ∨
    ∃ k f, (∀ x : UserDoc, (f x).password_hash = x.password_hash) ∧
      (adminEditCommit st oid order req nt).1.users =
        updateAssoc st.users k f := by
  unfold adminEditCommit
  cases hui : req.user_info with
  | none =>
      simp only
      split <;> exact Or.inl rfl
  | some ui =>
      simp only
      rcases hfe : findByEmail st.users order.user_email with _ | ⟨k, u⟩ <;>
        simp only [hfe]
      · split <;> exact Or.inl rfl
      · split <;>
          exact Or.inr ⟨k,
            (fun u => { u with name := ui.name, email := ui.email,
                               phone := ui.phone, address := ui.address }),
            fun x => rfl, rfl⟩

/-- C8. An admin order edit never modifies any user's
`password_hash`, even when `new_user_info` (including a password) is
supplied: every user document present before the edit is still found
afterwards with its original hash — only name, email, phone and address
(the only other fields) can have changed. -/
theorem admin_edit_order_preserves_password_hash (st : Store)
    (oid : String) (req : OrderEditRequest) (uid : String) (u : UserDoc)
    (h : findAssoc st.users uid = some u) :
    ∃ u', findAssoc (admin_edit_order st oid req).1.users uid = some u' ∧
      u'.password_hash = u.password_hash := by
  have husers : (admin_edit_order st oid req).1.users = st.users ∨
      ∃ k f, (∀ x : UserDoc, (f x).password_hash = x.password_hash) ∧
        (admin_edit_order st oid req).1.users = updateAssoc st.users k f := by
    simp only [admin_edit_order]
    split
    case isFalse => exact Or.inl rfl
    case isTrue =>
      split
      case h_1 => exact Or.inl rfl
      case h_2 order hord =>
        split
        case isFalse => exact Or.inl rfl
        case isTrue =>
          split
          case h_1 => exact Or.inl rfl
          case h_2 =>
            split
            case h_1 => exact Or.inl rfl
            case h_2 => exact Or.inl rfl
            case h_3 =>
              exact adminEditCommit_users
                (deductStock (restoreStock st order.items) req.items) oid
                order req ((req.items.map OrderItem.total).sum)
  rcases husers with h1 | ⟨k, f, hf, h1⟩
  · exact ⟨u, by rw [h1]; exact h, rfl⟩
  · rw [h1]
    exact findAssoc_update_hash st.users k f hf uid u h

/-- C8 witness: after the concrete admin edit with a new password
supplied, the owning user keeps the original hash. -/
theorem admin_edit_order_preserves_password_hash_witness :
    ∃ u', findAssoc (admin_edit_order stEdit oidW reqAdmin).1.users uidW =
        some u'
      ∧ u'.password_hash = userW.password_hash :=
  admin_edit_order_preserves_password_hash stEdit oidW reqAdmin uidW userW
    rfl
